import Mathlib

/-!
Verification development for the Briefing dashboard repository.

The subject of the specification is the recurring-event expansion engine
(iCal parsing, recurrence matching, occurrence projection).  The engine
itself (the Python server) is not part of the checked-in sources; only its
frontend consumer `src/public/js/app.js` is.  Definitions for the engine are
therefore modelled from the specification text (each such definition carries
a doc comment starting with "Modelled from the spec:"), while the rendering
definitions near the end of the file are translated from
`src/public/js/app.js`.
-/

set_option maxRecDepth 4000

namespace Briefing

/-- Calendar date: year, month (1..12), day (1..31). -/
structure Date where
  year : Nat
  month : Nat
  day : Nat
deriving DecidableEq, Repr

/-- Gregorian leap-year rule. -/
def isLeap (y : Nat) : Bool :=
  (y % 4 == 0 && y % 100 != 0) || (y % 400 == 0)

/-- Number of days in month `m` of year `y` (for `m` in 1..12). -/
def daysInMonth (y m : Nat) : Nat :=
  if m == 2 then (if isLeap y then 29 else 28)
  else if m == 4 || m == 6 || m == 9 || m == 11 then 30
  else 31

/-- Number of days in year `y`. -/
def daysInYear (y : Nat) : Nat :=
  if isLeap y then 366 else 365

/-- Julian day number of a Gregorian date (standard closed-form formula,
valid for year at least 1 and month 1..12). -/
def jdn (y m d : Nat) : Nat :=
  let a := (14 - m) / 12
  let y2 := y + 4800 - a
  let m2 := m + 12 * a - 3
  d + (153 * m2 + 2) / 5 + 365 * y2 + y2 / 4 - y2 / 100 + y2 / 400 - 32045

/-- Day number of a date, with 0001-01-01 mapped to 0.  This is the
day-count anchor used for the Daily rule, for weekday computation and for
Monday-aligned week numbering (0001-01-01 was a Monday). -/
def Date.toDays (d : Date) : Nat :=
  jdn d.year d.month d.day - 1721426

/-- Weekday enumeration, Monday first. -/
inductive Weekday where
  | mon | tue | wed | thu | fri | sat | sun
deriving DecidableEq, Repr

/-- Weekday from a day index modulo 7 (0 is Monday). -/
def weekdayOfIdx (n : Nat) : Weekday :=
  match n with
  | 0 => .mon
  | 1 => .tue
  | 2 => .wed
  | 3 => .thu
  | 4 => .fri
  | 5 => .sat
  | _ => .sun

/-- Weekday of a date. -/
def Date.weekday (d : Date) : Weekday :=
  weekdayOfIdx (d.toDays % 7)

/-- Index of the Monday-aligned week containing `d`: consecutive dates share
the index exactly when no Monday boundary lies between them. -/
def weekIndex (d : Date) : Nat :=
  d.toDays / 7

/-- Month index used by the Monthly rule: `year * 12 + month`. -/
def monthIndex (d : Date) : Int :=
  (d.year : Int) * 12 + (d.month : Int)

/-- Strict calendar-date comparison (lexicographic on year, month, day). -/
def dateBefore (a b : Date) : Bool :=
  decide (a.year < b.year ∨ (a.year = b.year ∧
    (a.month < b.month ∨ (a.month = b.month ∧ a.day < b.day))))

/-- Date validity: month in range and day within the month. -/
def isValidDate (d : Date) : Prop :=
  1 ≤ d.year ∧ 1 ≤ d.month ∧ d.month ≤ 12 ∧ 1 ≤ d.day ∧ d.day ≤ daysInMonth d.year d.month

instance (d : Date) : Decidable (isValidDate d) := by
  unfold isValidDate
  exact inferInstance

/-- Point in time: a calendar date plus a time of day. -/
structure Timestamp where
  date : Date
  hour : Nat
  minute : Nat
  second : Nat
deriving DecidableEq, Repr

/-- Seconds since the epoch of `Date.toDays`; the sort key for occurrences. -/
def toSeconds (t : Timestamp) : Nat :=
  t.date.toDays * 86400 + t.hour * 3600 + t.minute * 60 + t.second

/-- Recurrence frequency.  Modelled from the spec: the four supported
values, plus a marker for any other FREQ value, which the spec requires to
be treated as non-recurring-and-non-matching (fails closed). -/
inductive Frequency where
  | daily | weekly | monthly | yearly
  | unsupported (raw : String)
deriving DecidableEq, Repr

/-- Modelled from the spec: parsed RRULE with frequency, interval (default
1), by-day set (Weekly only), until bound, and a count that is parsed but
never consulted. -/
structure RecurrenceRule where
  frequency : Frequency
  interval : Nat
  byDay : List Weekday
  untilTime : Option Timestamp
  count : Option Nat
deriving DecidableEq, Repr

/-- Modelled from the spec: one parsed VEVENT block. -/
structure RawEvent where
  uid : String
  summary : String
  description : String
  dtStart : Timestamp
  dtEnd : Option Timestamp
  isAllDay : Bool
  recurrenceRule : Option RecurrenceRule
deriving DecidableEq, Repr

/-- Modelled from the spec: a difference value is accepted when it is a
non-negative multiple of the interval. -/
def intervalHits (i : Nat) (diff : Int) : Bool :=
  decide (0 ≤ diff ∧ diff % (i : Int) = 0)

/-- Modelled from the spec: the until bound excludes a target date only when
the target is strictly after the until date (inclusive boundary). -/
def untilExcludes (r : RecurrenceRule) (t : Date) : Bool :=
  match r.untilTime with
  | some u => dateBefore u.date t
  | none => false

/-- Modelled from the spec: the effective weekday set of a Weekly rule is
`byDay` when non-empty, else the singleton weekday of the start date. -/
def effectiveByDay (r : RecurrenceRule) (startDate : Date) : List Weekday :=
  if r.byDay.isEmpty then [startDate.weekday] else r.byDay

/-- Modelled from the spec: the recurrence expander.  Decides whether the
event has an occurrence on the target date, per section 4.2 of the spec:
non-recurring events match exactly their start date; recurring events first
reject targets before the start date or after the until date, then apply the
frequency rule; unsupported frequencies never match. -/
def matchesDate (e : RawEvent) (t : Date) : Bool :=
  match e.recurrenceRule with
  | none => decide (e.dtStart.date = t)
  | some r =>
    if dateBefore t e.dtStart.date then false
    else if untilExcludes r t then false
    else
      match r.frequency with
      | .daily =>
          intervalHits r.interval ((t.toDays : Int) - (e.dtStart.date.toDays : Int))
      | .weekly =>
          decide (t.weekday ∈ effectiveByDay r e.dtStart.date) &&
            intervalHits r.interval ((weekIndex t : Int) - (weekIndex e.dtStart.date : Int))
      | .monthly =>
          decide (t.day = e.dtStart.date.day) &&
            intervalHits r.interval (monthIndex t - monthIndex e.dtStart.date)
      | .yearly =>
          decide (t.month = e.dtStart.date.month ∧ t.day = e.dtStart.date.day) &&
            intervalHits r.interval ((t.year : Int) - (e.dtStart.date.year : Int))
      | .unsupported _ => false

/-- Split a character list at the first occurrence of the separator;
`none` when the separator does not occur. -/
def breakAt (sep : Char) : List Char → Option (List Char × List Char)
  | [] => none
  | c :: cs =>
    if c = sep then some ([], cs)
    else
      match breakAt sep cs with
      | some (l, r) => some (c :: l, r)
      | none => none

/-- Split a character list on every occurrence of the separator. -/
def splitAll (sep : Char) : List Char → List (List Char)
  | [] => [[]]
  | c :: cs =>
    if c = sep then [] :: splitAll sep cs
    else
      match splitAll sep cs with
      | [] => [[c]]
      | l :: ls => (c :: l) :: ls

/-- Remove a trailing carriage return from one line. -/
def dropCR (l : List Char) : List Char :=
  if l.getLast? = some '\r' then l.dropLast else l

/-- Modelled from the spec: unfold iCal line continuations, where a line
starting with a space or tab continues the previous line. -/
def unfoldLines : List (List Char) → List (List Char)
  | [] => []
  | l :: rest =>
    match unfoldLines rest with
    | [] => [l]
    | r :: rs =>
      match r with
      | c :: cr => if c = ' ' ∨ c = '\t' then (l ++ cr) :: rs else l :: (c :: cr) :: rs
      | [] => l :: [] :: rs

/-- Modelled from the spec: cut the unfolded lines into VEVENT blocks, the
runs of lines strictly between BEGIN:VEVENT and END:VEVENT markers. -/
def collectBlocksAux : List (List Char) → Option (List (List Char)) → List (List (List Char))
  | [], _ => []
  | l :: rest, none =>
    if l = "BEGIN:VEVENT".data then collectBlocksAux rest (some [])
    else collectBlocksAux rest none
  | l :: rest, some acc =>
    if l = "END:VEVENT".data then acc.reverse :: collectBlocksAux rest none
    else collectBlocksAux rest (some (l :: acc))

/-- Parse a run of decimal digits; `none` on empty or non-digit input. -/
def parseNatAux : List Char → Nat → Option Nat
  | [], acc => some acc
  | c :: cs, acc =>
    if c.isDigit then parseNatAux cs (acc * 10 + (c.toNat - 48)) else none

/-- Parse a non-empty all-digit character list as a natural number. -/
def parseNatDigits : List Char → Option Nat
  | [] => none
  | cs => parseNatAux cs 0

/-- Two decimal digits as a number. -/
def digits2 (a b : Char) : Option Nat :=
  if a.isDigit && b.isDigit then some ((a.toNat - 48) * 10 + (b.toNat - 48)) else none

/-- Four decimal digits as a number. -/
def digits4 (a b c d : Char) : Option Nat :=
  if a.isDigit && b.isDigit && c.isDigit && d.isDigit then
    some ((a.toNat - 48) * 1000 + (b.toNat - 48) * 100 + (c.toNat - 48) * 10 + (d.toNat - 48))
  else none

/-- The date triple when it is a valid calendar date. -/
def mkValidDate (y m d : Nat) : Option Date :=
  if isValidDate ⟨y, m, d⟩ then some ⟨y, m, d⟩ else none

/-- Modelled from the spec: parse an iCal timestamp value, either the
date-only form YYYYMMDD or the date-time form YYYYMMDDTHHMMSS with an
optional Z suffix.  Zone markers are treated as already-local, the
documented approximation for the missing zone table; invalid dates or
times yield none. -/
def parseTimestamp (cs : List Char) : Option Timestamp :=
  match cs with
  | [y1, y2, y3, y4, mo1, mo2, da1, da2] => do
    let y ← digits4 y1 y2 y3 y4
    let mo ← digits2 mo1 mo2
    let da ← digits2 da1 da2
    let dt ← mkValidDate y mo da
    pure ⟨dt, 0, 0, 0⟩
  | y1 :: y2 :: y3 :: y4 :: mo1 :: mo2 :: da1 :: da2 :: 'T' :: h1 :: h2 :: mi1 :: mi2 :: s1 :: s2 :: rest =>
    if rest = [] ∨ rest = ['Z'] then do
      let y ← digits4 y1 y2 y3 y4
      let mo ← digits2 mo1 mo2
      let da ← digits2 da1 da2
      let dt ← mkValidDate y mo da
      let h ← digits2 h1 h2
      let mi ← digits2 mi1 mi2
      let s ← digits2 s1 s2
      if h < 24 ∧ mi < 60 ∧ s < 60 then pure ⟨dt, h, mi, s⟩ else none
    else none
  | _ => none

/-- FREQ value to frequency; anything outside the four supported values is
kept as an unsupported marker. -/
def freqOfChars (v : List Char) : Frequency :=
  if v = "DAILY".data then .daily
  else if v = "WEEKLY".data then .weekly
  else if v = "MONTHLY".data then .monthly
  else if v = "YEARLY".data then .yearly
  else .unsupported (String.mk v)

/-- BYDAY code to weekday. -/
def weekdayOfCode (v : List Char) : Option Weekday :=
  if v = "MO".data then some .mon
  else if v = "TU".data then some .tue
  else if v = "WE".data then some .wed
  else if v = "TH".data then some .thu
  else if v = "FR".data then some .fri
  else if v = "SA".data then some .sat
  else if v = "SU".data then some .sun
  else none

/-- First value bound to a key in a semicolon-separated key=value list. -/
def lookupKey (kvs : List (List Char × List Char)) (k : String) : Option (List Char) :=
  (kvs.find? (fun p => p.1 == k.data)).map (fun p => p.2)

/-- Modelled from the spec: parse an RRULE value.  FREQ is required (a
missing or unrecognized value degrades to the unsupported marker), INTERVAL
defaults to 1, BYDAY collects the recognized weekday codes, UNTIL is parsed
as a timestamp, COUNT is parsed but never enforced. -/
def parseRRule (cs : List Char) : RecurrenceRule :=
  let kvs := (splitAll ';' cs).filterMap (breakAt '=')
  let freq :=
    match lookupKey kvs "FREQ" with
    | some v => freqOfChars v
    | none => .unsupported ""
  let ival :=
    match (lookupKey kvs "INTERVAL").bind parseNatDigits with
    | some n => if n = 0 then 1 else n
    | none => 1
  let bd :=
    match lookupKey kvs "BYDAY" with
    | some v => (splitAll ',' v).filterMap weekdayOfCode
    | none => []
  let unt := (lookupKey kvs "UNTIL").bind parseTimestamp
  let cnt := (lookupKey kvs "COUNT").bind parseNatDigits
  ⟨freq, ival, bd, unt, cnt⟩

/-- Accumulator for one VEVENT block. -/
structure EventAcc where
  uid : String := ""
  summary : String := ""
  description : String := ""
  start? : Option (Timestamp × Bool) := none
  dtEnd : Option Timestamp := none
  rrule : Option RecurrenceRule := none

/-- Modelled from the spec: apply one content line to the accumulator,
recognizing DTSTART (with a VALUE=DATE parameter or a date-only value
marking an all-day event), DTEND, RRULE, SUMMARY, DESCRIPTION and UID;
unknown lines are ignored. -/
def applyLine (acc : EventAcc) (line : List Char) : EventAcc :=
  match breakAt ':' line with
  | none => acc
  | some (head, value) =>
    match splitAll ';' head with
    | [] => acc
    | name :: params =>
      if name = "DTSTART".data then
        match parseTimestamp value with
        | some ts =>
          let allday := params.contains "VALUE=DATE".data || value.length == 8
          { acc with start? := some (ts, allday) }
        | none => acc
      else if name = "DTEND".data then
        match parseTimestamp value with
        | some ts => { acc with dtEnd := some ts }
        | none => acc
      else if name = "RRULE".data then { acc with rrule := some (parseRRule value) }
      else if name = "SUMMARY".data then { acc with summary := String.mk value }
      else if name = "DESCRIPTION".data then { acc with description := String.mk value }
      else if name = "UID".data then { acc with uid := String.mk value }
      else acc

/-- Modelled from the spec: parse one VEVENT block; a block with a missing
or unparseable DTSTART is malformed and yields none. -/
def parseEvent (lines : List (List Char)) : Option RawEvent :=
  let acc := lines.foldl applyLine {}
  match acc.start? with
  | some (ts, allday) =>
    some ⟨acc.uid, acc.summary, acc.description, ts, acc.dtEnd, allday, acc.rrule⟩
  | none => none

/-- Modelled from the spec: parse raw calendar text into events.  Lines are
split, continuations unfolded, VEVENT blocks cut out and parsed
independently; malformed blocks are skipped and text with no VEVENT block
at all yields the empty list.  The function is total, so the parse never
raises. -/
def parseCalendar (raw : String) : List RawEvent :=
  let lines := (splitAll '\n' raw.data).map dropCR
  let blocks := collectBlocksAux (unfoldLines lines) none
  blocks.filterMap parseEvent

/-- Find the year containing absolute day `n`, peeling whole years. -/
def findYearAux : Nat → Nat → Nat → Nat × Nat
  | 0, y, n => (y, n)
  | fuel + 1, y, n =>
    if n < daysInYear y then (y, n) else findYearAux fuel (y + 1) (n - daysInYear y)

/-- Find the month containing day `n` of a year, peeling whole months. -/
def findMonthAux : Nat → Nat → Nat → Nat → Nat × Nat
  | 0, _, m, n => (m, n)
  | fuel + 1, y, m, n =>
    if n < daysInMonth y m then (m, n) else findMonthAux fuel y (m + 1) (n - daysInMonth y m)

/-- Inverse of `Date.toDays`: the calendar date of an absolute day number. -/
def daysToDate (n : Nat) : Date :=
  let p := findYearAux (n + 1) 1 n
  let q := findMonthAux 12 p.1 1 p.2
  ⟨p.1, q.1, q.2 + 1⟩

/-- Shift a date by a signed number of days. -/
def addDays (d : Date) (k : Int) : Date :=
  daysToDate ((d.toDays : Int) + k).toNat

/-- Modelled from the spec: one concrete event instance for a matched date. -/
structure Occurrence where
  title : String
  description : String
  startTime : Timestamp
  endTime : Option Timestamp
  isAllDay : Bool
  sourceEventUid : String
deriving DecidableEq, Repr

/-- Modelled from the spec: the occurrence projector.  The time of day of
dtStart and dtEnd is re-anchored onto the target date; the whole-day offset
between dtEnd and dtStart is carried along, so the duration is preserved
when dtEnd is present, and endTime is absent otherwise. -/
def project (e : RawEvent) (t : Date) : Occurrence where
  title := e.summary
  description := e.description
  startTime := ⟨t, e.dtStart.hour, e.dtStart.minute, e.dtStart.second⟩
  endTime := e.dtEnd.map (fun de =>
    ⟨addDays t ((de.date.toDays : Int) - (e.dtStart.date.toDays : Int)),
      de.hour, de.minute, de.second⟩)
  isAllDay := e.isAllDay
  sourceEventUid := e.uid

/-- Tie-break rank: all-day occurrences sort before timed occurrences with
the same start second. -/
def alldayRank (o : Occurrence) : Nat :=
  if o.isAllDay then 0 else 1

/-- Modelled from the spec: the eventsOnDate output order, start time
ascending with all-day occurrences first among equal start times. -/
def occLe (a b : Occurrence) : Prop :=
  toSeconds a.startTime < toSeconds b.startTime ∨
    (toSeconds a.startTime = toSeconds b.startTime ∧ alldayRank a ≤ alldayRank b)

instance : DecidableRel occLe := fun a b => by
  unfold occLe
  exact inferInstance

/-- Start-time comparison used by the calendar widget sort in
renderCalendarWidget of src/public/js/app.js. -/
def widgetLe (a b : Occurrence) : Prop :=
  toSeconds a.startTime ≤ toSeconds b.startTime

instance : DecidableRel widgetLe := fun a b => by
  unfold widgetLe
  exact inferInstance

instance : IsTotal Occurrence occLe where
  total a b := by unfold occLe; omega

instance : IsTrans Occurrence occLe where
  trans a b c := by unfold occLe; omega

instance : IsTotal Occurrence widgetLe where
  total a b := by unfold widgetLe; omega

instance : IsTrans Occurrence widgetLe where
  trans a b c := by unfold widgetLe; omega

/-- Modelled from the spec: the occurrences of the matching events, in the
insertion order of the input events, before sorting. -/
def occsRaw (evs : List RawEvent) (t : Date) : List Occurrence :=
  (evs.filter (fun e => matchesDate e t)).map (fun e => project e t)

/-- Modelled from the spec: eventsOnDate applies matchesDate then project to
every event and returns the occurrences sorted by start time ascending with
all-day occurrences first; the insertion sort is stable, so remaining ties
keep insertion order. -/
def eventsOnDate (evs : List RawEvent) (t : Date) : List Occurrence :=
  List.insertionSort occLe (occsRaw evs t)

/-- Translated from renderCalendarWidget in src/public/js/app.js: the widget
re-sorts the received occurrences by start time alone, with the stable
Array.prototype.sort. -/
def widgetSorted (l : List Occurrence) : List Occurrence :=
  List.insertionSort widgetLe l

/-- Clock rendering of a start time in the 12-hour format produced by
toLocaleTimeString in src/public/js/app.js. -/
def clockString (t : Timestamp) : String :=
  let h12 := if t.hour % 12 = 0 then 12 else t.hour % 12
  let mm := (if t.minute < 10 then "0" else "") ++ toString t.minute
  let ap := if t.hour < 12 then "AM" else "PM"
  toString h12 ++ ":" ++ mm ++ " " ++ ap

/-- Translated from formatEventTime in src/public/js/app.js: an all-day
occurrence renders as the fixed string "All day"; otherwise the start time
renders as a clock time. -/
def formatEventTime (start : Timestamp) (_stop : Option Timestamp) (isAllDay : Bool) : String :=
  if isAllDay then "All day" else clockString start

/-- Translated from createEventElement in src/public/js/app.js: a
description longer than 100 characters is cut to its first 100 characters
followed by an ellipsis. -/
def displayedDescription (description : String) : String :=
  if description.length > 100 then String.mk (description.data.take 100) ++ "..." else description

/-- Translated from createEventElement in src/public/js/app.js: the title is
rendered unchanged. -/
def displayedTitle (title : String) : String :=
  title

/-- Timestamp at midnight of a date. -/
def midnight (y m d : Nat) : Timestamp :=
  ⟨⟨y, m, d⟩, 0, 0, 0⟩

/-- Weekly rule, interval 2, empty BYDAY. -/
def biweeklyRule : RecurrenceRule :=
  ⟨.weekly, 2, [], none, none⟩

/-- Weekly event with interval 2 starting 2024-01-01, a Monday. -/
def biweeklyEv : RawEvent :=
  ⟨"uid-w", "Gym", "", midnight 2024 1 1, none, false, some biweeklyRule⟩

/-- Monthly rule, interval 1. -/
def day31Rule : RecurrenceRule :=
  ⟨.monthly, 1, [], none, none⟩

/-- Monthly event starting on the 31st. -/
def day31Ev : RawEvent :=
  ⟨"uid-m", "Pay", "", midnight 2024 1 31, none, false, some day31Rule⟩

/-- Yearly rule, interval 1. -/
def leapRule : RecurrenceRule :=
  ⟨.yearly, 1, [], none, none⟩

/-- Yearly event starting on a leap day. -/
def leapEv : RawEvent :=
  ⟨"uid-y", "Leap", "", midnight 2024 2 29, none, false, some leapRule⟩

/-- Daily rule bounded by UNTIL 2024-01-10. -/
def untilRule : RecurrenceRule :=
  ⟨.daily, 1, [], some (midnight 2024 1 10), none⟩

/-- Daily event with an until bound. -/
def untilEv : RawEvent :=
  ⟨"uid-u", "Standup", "", midnight 2024 1 1, none, false, some untilRule⟩

/-- Daily event whose rule carries COUNT=5, produced by the RRULE parser. -/
def countEv : RawEvent :=
  ⟨"uid-c", "Count", "", midnight 2024 1 1, none, false, some (parseRRule "FREQ=DAILY;COUNT=5".data)⟩

/-- Rule with a frequency outside the supported four. -/
def unsupportedRule : RecurrenceRule :=
  ⟨.unsupported "MINUTELY", 1, [], none, none⟩

/-- Event with an unsupported recurrence frequency. -/
def unsupportedEv : RawEvent :=
  ⟨"uid-x", "Odd", "", midnight 2024 1 1, none, false, some unsupportedRule⟩

/-- Single non-recurring event. -/
def nonRecEv : RawEvent :=
  ⟨"uid-s", "Dentist", "", ⟨⟨2024, 5, 1⟩, 9, 30, 0⟩, none, false, none⟩

/-- Raw text that is not calendar text at all. -/
def brokenDoc : String :=
  "hello world, nothing calendar about this"

/-- A document whose first VEVENT block has an unparseable DTSTART and whose
second block is well formed. -/
def mixedDoc : String :=
  "BEGIN:VCALENDAR\nBEGIN:VEVENT\nDTSTART:garbage\nSUMMARY:Bad\nEND:VEVENT\nBEGIN:VEVENT\nUID:ok-1\nDTSTART:20240607T090000Z\nSUMMARY:Lunch meeting\nEND:VEVENT\nEND:VCALENDAR\n"

/-- The event carried by the well-formed block of mixedDoc. -/
def goodEvent : RawEvent :=
  ⟨"ok-1", "Lunch meeting", "", ⟨⟨2024, 6, 7⟩, 9, 0, 0⟩, none, false, none⟩

/-- A 101-character string. -/
def longText : String :=
  String.mk (List.replicate 101 'a')

/-- Helper: the accepted interval condition is exactly being a non-negative
multiple of the interval. -/
theorem intervalHits_iff (i : Nat) (diff : Int) :
    intervalHits i diff = true ↔ ∃ k : Nat, diff = (i : Int) * k := by
  unfold intervalHits
  rw [decide_eq_true_eq]
  constructor
  · rintro ⟨h0, hm⟩
    have hd : (i : Int) ∣ diff := Int.dvd_of_emod_eq_zero hm
    rw [← Int.toNat_of_nonneg h0] at hd
    have hd2 : i ∣ diff.toNat := Int.natCast_dvd_natCast.mp hd
    rcases hd2 with ⟨k, hk⟩
    refine ⟨k, ?_⟩
    rw [← Int.toNat_of_nonneg h0, hk]
    push_cast
    ring
  · rintro ⟨k, rfl⟩
    refine ⟨by positivity, ?_⟩
    simp [Int.mul_emod_right]

/-- Helper: the until guard passes when no until bound excludes the target. -/
theorem untilExcludes_eq_false {r : RecurrenceRule} {t : Date}
    (h : ∀ u, r.untilTime = some u → dateBefore u.date t = false) :
    untilExcludes r t = false := by
  unfold untilExcludes
  cases hu : r.untilTime with
  | none => rfl
  | some u => exact h u hu

/-- C1: for every Weekly recurring event and target date not before the
start date and not excluded by the until bound, matchesDate holds exactly
when the target weekday lies in the effective weekday set (byDay if
non-empty, else the start weekday) and the Monday-aligned week difference is
a non-negative multiple of the interval; with interval 2, empty byDay and
start 2024-01-01 it matches 01-01, 01-15 and 01-29 and not 01-08. -/
theorem weekly_matches_spec :
    (∀ (e : RawEvent) (r : RecurrenceRule) (t : Date),
      e.recurrenceRule = some r → r.frequency = .weekly →
      dateBefore t e.dtStart.date = false → untilExcludes r t = false →
      (matchesDate e t = true ↔
        (t.weekday ∈ effectiveByDay r e.dtStart.date ∧
          ∃ k : Nat, (weekIndex t : Int) - (weekIndex e.dtStart.date : Int) =
            (r.interval : Int) * k))) ∧
    matchesDate biweeklyEv ⟨2024, 1, 1⟩ = true ∧
    matchesDate biweeklyEv ⟨2024, 1, 15⟩ = true ∧
    matchesDate biweeklyEv ⟨2024, 1, 29⟩ = true ∧
    matchesDate biweeklyEv ⟨2024, 1, 8⟩ = false := by
  refine ⟨?_, by decide, by decide, by decide, by decide⟩
  intro e r t hr hf hb hu
  simp only [matchesDate, hr, hf, hb, hu, Bool.false_eq_true, if_false]
  rw [Bool.and_eq_true, decide_eq_true_eq, intervalHits_iff]

/-- Witness for C1 at the biweekly event and 2024-01-15. -/
theorem weekly_matches_spec_witness :
    (Date.mk 2024 1 15).weekday ∈ effectiveByDay biweeklyRule (Date.mk 2024 1 1) ∧
    ∃ k : Nat, (weekIndex ⟨2024, 1, 15⟩ : Int) - (weekIndex ⟨2024, 1, 1⟩ : Int) =
      ((2 : Nat) : Int) * k :=
  (weekly_matches_spec.1 biweeklyEv biweeklyRule ⟨2024, 1, 15⟩ rfl rfl
    (by decide) (by decide)).mp (by decide)

/-- C2: for every Monthly recurring event with valid start and target dates
and no excluding until bound, matchesDate holds exactly when the day of
month agrees and the month-index difference is a non-negative multiple of
the interval; a start on the 31st never matches in February 2024 and the
event starting 2024-01-31 matches 2024-03-31. -/
theorem monthly_matches_spec :
    (∀ (e : RawEvent) (r : RecurrenceRule) (t : Date),
      e.recurrenceRule = some r → r.frequency = .monthly →
      (∀ u, r.untilTime = some u → dateBefore u.date t = false) →
      isValidDate e.dtStart.date → isValidDate t →
      (matchesDate e t = true ↔
        (t.day = e.dtStart.date.day ∧
          ∃ k : Nat, monthIndex t - monthIndex e.dtStart.date = (r.interval : Int) * k))) ∧
    matchesDate day31Ev ⟨2024, 3, 31⟩ = true ∧
    (∀ d : Fin 30, matchesDate day31Ev ⟨2024, 2, d.val⟩ = false) := by
  refine ⟨?_, by decide, by decide⟩
  intro e r t hr hf hu hvs hvt
  have hue : untilExcludes r t = false := untilExcludes_eq_false hu
  simp only [matchesDate, hr, hf, hue, Bool.false_eq_true, if_false]
  by_cases hb : dateBefore t e.dtStart.date = true
  · simp only [hb, eq_self_iff_true, if_true, Bool.false_eq_true, false_iff]
    rintro ⟨hday, k, hk⟩
    have h0 : (0 : Int) ≤ monthIndex t - monthIndex e.dtStart.date := by
      rw [hk]
      positivity
    revert hb
    unfold dateBefore
    unfold monthIndex at h0
    unfold isValidDate at hvs hvt
    simp only [decide_eq_true_eq]
    omega
  · rw [Bool.not_eq_true] at hb
    rw [hb]
    simp only [Bool.false_eq_true, if_false]
    rw [Bool.and_eq_true, decide_eq_true_eq, intervalHits_iff]

/-- Witness for C2 at the 31st-of-month event and 2024-03-31. -/
theorem monthly_matches_spec_witness :
    (Date.mk 2024 3 31).day = day31Ev.dtStart.date.day ∧
    ∃ k : Nat, monthIndex ⟨2024, 3, 31⟩ - monthIndex day31Ev.dtStart.date =
      ((1 : Nat) : Int) * k :=
  (monthly_matches_spec.1 day31Ev day31Rule ⟨2024, 3, 31⟩ rfl rfl
    (fun u h => Option.noConfusion h) (by decide) (by decide)).mp (by decide)

/-- C3: for every recurring event, matchesDate is false for target dates
strictly before the start date, and false for target dates strictly after
the until date, while a target equal to the until date is not rejected: the
daily event with UNTIL 2024-01-10 matches 2024-01-10 and not 2024-01-11. -/
theorem bounds_guard_spec :
    (∀ (e : RawEvent) (r : RecurrenceRule) (t : Date), e.recurrenceRule = some r →
      (dateBefore t e.dtStart.date = true → matchesDate e t = false) ∧
      (∀ u, r.untilTime = some u → dateBefore u.date t = true → matchesDate e t = false)) ∧
    matchesDate untilEv ⟨2024, 1, 10⟩ = true ∧
    matchesDate untilEv ⟨2024, 1, 11⟩ = false := by
  refine ⟨?_, by decide, by decide⟩
  intro e r t hr
  constructor
  · intro hb
    simp [matchesDate, hr, hb]
  · intro u hu hb
    simp [matchesDate, hr, untilExcludes, hu, hb]

/-- Witness for C3 at the until-bounded event and a date before its start. -/
theorem bounds_guard_spec_witness :
    matchesDate untilEv ⟨2023, 12, 31⟩ = false :=
  (bounds_guard_spec.1 untilEv untilRule ⟨2023, 12, 31⟩ rfl).1 (by decide)

/-- C4: an event without a recurrence rule matches exactly its start date,
and eventsOnDate yields exactly one occurrence for it on that date and none
on any other date. -/
theorem nonrecurring_eventsOnDate_spec :
    ∀ (e : RawEvent) (t : Date), e.recurrenceRule = none →
      (matchesDate e t = true ↔ e.dtStart.date = t) ∧
      eventsOnDate [e] t = (if e.dtStart.date = t then [project e t] else []) := by
  intro e t hr
  constructor
  · simp [matchesDate, hr]
  · by_cases h : e.dtStart.date = t
    · simp [eventsOnDate, occsRaw, matchesDate, hr, h, List.insertionSort, List.orderedInsert]
    · simp [eventsOnDate, occsRaw, matchesDate, hr, h]

/-- Witness for C4 at a concrete single event on its start date. -/
theorem nonrecurring_eventsOnDate_spec_witness :
    eventsOnDate [nonRecEv] ⟨2024, 5, 1⟩ = [project nonRecEv ⟨2024, 5, 1⟩] := by
  have h := (nonrecurring_eventsOnDate_spec nonRecEv ⟨2024, 5, 1⟩ rfl).2
  simpa using h

/-- C5: for every Yearly recurring event with no excluding until bound,
matchesDate holds exactly when month and day agree with the start date and
the year difference is a non-negative multiple of the interval; the
leap-day event starting 2024-02-29 does not match 2025-02-28 or 2025-03-01
and matches 2028-02-29. -/
theorem yearly_matches_spec :
    (∀ (e : RawEvent) (r : RecurrenceRule) (t : Date),
      e.recurrenceRule = some r → r.frequency = .yearly →
      (∀ u, r.untilTime = some u → dateBefore u.date t = false) →
      (matchesDate e t = true ↔
        (t.month = e.dtStart.date.month ∧ t.day = e.dtStart.date.day ∧
          ∃ k : Nat, (t.year : Int) - (e.dtStart.date.year : Int) = (r.interval : Int) * k))) ∧
    matchesDate leapEv ⟨2025, 2, 28⟩ = false ∧
    matchesDate leapEv ⟨2025, 3, 1⟩ = false ∧
    matchesDate leapEv ⟨2028, 2, 29⟩ = true := by
  refine ⟨?_, by decide, by decide, by decide⟩
  intro e r t hr hf hu
  have hue : untilExcludes r t = false := untilExcludes_eq_false hu
  simp only [matchesDate, hr, hf, hue, Bool.false_eq_true, if_false]
  by_cases hb : dateBefore t e.dtStart.date = true
  · simp only [hb, eq_self_iff_true, if_true, Bool.false_eq_true, false_iff]
    rintro ⟨hmo, hday, k, hk⟩
    have h0 : (0 : Int) ≤ (t.year : Int) - (e.dtStart.date.year : Int) := by
      rw [hk]
      positivity
    revert hb
    unfold dateBefore
    simp only [decide_eq_true_eq]
    omega
  · rw [Bool.not_eq_true] at hb
    rw [hb]
    simp only [Bool.false_eq_true, if_false]
    rw [Bool.and_eq_true, decide_eq_true_eq, intervalHits_iff, and_assoc]

/-- Witness for C5 at the leap-day event and 2028-02-29. -/
theorem yearly_matches_spec_witness :
    (Date.mk 2028 2 29).month = leapEv.dtStart.date.month ∧
    (Date.mk 2028 2 29).day = leapEv.dtStart.date.day ∧
    ∃ k : Nat, ((2028 : Nat) : Int) - (leapEv.dtStart.date.year : Int) =
      ((1 : Nat) : Int) * k :=
  (yearly_matches_spec.1 leapEv leapRule ⟨2028, 2, 29⟩ rfl rfl
    (fun u h => Option.noConfusion h)).mp (by decide)

/-- C6: the count field never affects matching, so an event with COUNT keeps
matching beyond its count; COUNT is still parsed (here COUNT=5), and the
COUNT=5 daily event still matches the hundredth day after its start. -/
theorem count_ignored_spec :
    (∀ (e : RawEvent) (r : RecurrenceRule) (c : Option Nat) (t : Date),
      matchesDate { e with recurrenceRule := some { r with count := c } } t =
        matchesDate { e with recurrenceRule := some { r with count := none } } t) ∧
    (parseRRule "FREQ=DAILY;COUNT=5".data).count = some 5 ∧
    matchesDate countEv ⟨2024, 4, 10⟩ = true := by
  refine ⟨?_, by decide, by decide⟩
  intro e r c t
  cases r
  rfl

/-- C7: the core fails closed: an unsupported frequency matches no date and
emits no occurrence, a document that is not calendar text parses to the
empty list, and a document with one malformed VEVENT block still yields the
events of its well-formed blocks. -/
theorem fail_closed_spec :
    (∀ (e : RawEvent) (r : RecurrenceRule) (s : String) (t : Date),
      e.recurrenceRule = some r → r.frequency = .unsupported s →
      matchesDate e t = false ∧ occsRaw [e] t = []) ∧
    parseCalendar brokenDoc = [] ∧
    parseCalendar mixedDoc = [goodEvent] := by
  refine ⟨?_, by decide, by decide⟩
  intro e r s t hr hf
  have hm : matchesDate e t = false := by
    simp [matchesDate, hr, hf]
  exact ⟨hm, by simp [occsRaw, hm]⟩

/-- Witness for C7 at the event with frequency MINUTELY. -/
theorem fail_closed_spec_witness :
    matchesDate unsupportedEv ⟨2024, 1, 1⟩ = false :=
  (fail_closed_spec.1 unsupportedEv unsupportedRule "MINUTELY" ⟨2024, 1, 1⟩ rfl rfl).1

/-- Helper: the eventsOnDate order implies the widget order. -/
theorem occLe_imp_widgetLe {a b : Occurrence} (h : occLe a b) : widgetLe a b := by
  unfold occLe at h
  unfold widgetLe
  omega

/-- C8: the sequence displayed by the calendar widget is the eventsOnDate
output unchanged: the widget re-sort by start time is stable and does not
disturb it, the order is start time ascending with all-day occurrences
before timed ones on equal start times, and eventsOnDate is the stable
insertion sort of the occurrences taken in insertion order, so remaining
ties keep insertion order. -/
theorem display_order_spec :
    ∀ (evs : List RawEvent) (t : Date),
      widgetSorted (eventsOnDate evs t) = eventsOnDate evs t ∧
      List.Sorted occLe (eventsOnDate evs t) ∧
      eventsOnDate evs t = List.insertionSort occLe (occsRaw evs t) := by
  intro evs t
  have hs : List.Sorted occLe (eventsOnDate evs t) :=
    List.sorted_insertionSort occLe (occsRaw evs t)
  refine ⟨?_, hs, rfl⟩
  have hw : List.Sorted widgetLe (eventsOnDate evs t) :=
    hs.imp (fun h => occLe_imp_widgetLe h)
  exact hw.insertionSort_eq

/-- C9: an occurrence flagged all-day always renders as the fixed string
"All day", whatever its start and end times hold. -/
theorem allday_rendering_spec :
    ∀ (start : Timestamp) (stop : Option Timestamp),
      formatEventTime start stop true = "All day" := by
  intro start stop
  rfl

/-- C10: a description longer than 100 characters displays as exactly its
first 100 characters followed by an ellipsis, a shorter one displays in
full, and the title is never truncated. -/
theorem description_truncation_spec :
    ∀ (descr title : String),
      (100 < descr.length →
        displayedDescription descr = String.mk (descr.data.take 100) ++ "...") ∧
      (descr.length ≤ 100 → displayedDescription descr = descr) ∧
      displayedTitle title = title := by
  intro descr title
  refine ⟨?_, ?_, rfl⟩
  · intro h
    unfold displayedDescription
    rw [if_pos h]
  · intro h
    unfold displayedDescription
    rw [if_neg (by omega)]

/-- Witness for C10 at a 101-character description. -/
theorem description_truncation_spec_witness :
    displayedDescription longText = String.mk (List.replicate 100 'a') ++ "..." := by
  have h := (description_truncation_spec longText "t").1 (by decide)
  rw [h]
  decide

end Briefing
